import Mathlib

/-!
Verification of the cross-page correlation and enrichment pipeline of the
VIQRC Enhanced browser extension, as a shallow embedding of the two content
scripts (content.js for the skills standings page, event-page.js for the
event page).  Scores are modelled as rationals, dates as natural-number
timestamps, maps as association lists, and fallible or absent values as
Option.
-/

/-- JavaScript Math.round: rounds half toward positive infinity. -/
def jsRound (q : ℚ) : ℤ := ⌊q + 1/2⌋

namespace ContentJs

/-- content.js getPercentile (lines 220-223): counts reference scores strictly
below the given score and divides by the population size.  The source has no
guard for an empty population; the JavaScript division 0/0 yields NaN, which
is modelled here as none. -/
def getPercentile (score : ℚ) (allScores : List ℚ) : Option ℤ :=
  if allScores.length = 0 then none
  else some (jsRound (((allScores.filter (fun s => decide (s < score))).length : ℚ)
    / (allScores.length : ℚ) * 100))

end ContentJs

namespace EventPage

/-- event-page.js getPercentile (lines 748-752): identical computation to the
content.js version, but guarded so that an empty reference population
returns 0. -/
def getPercentile (score : ℚ) (allScores : List ℚ) : ℤ :=
  if allScores.length = 0 then 0
  else jsRound (((allScores.filter (fun s => decide (s < score))).length : ℚ)
    / (allScores.length : ℚ) * 100)

/-- One captured competition (a CompetitionCapture in the settings blob). -/
structure CompetitionCapture where
  teams : List String
  name : String
  capacity : String
  fetchedAt : Nat
deriving DecidableEq

/-- The persisted settings document of event-page.js.  Fields that may be
absent from the stored JSON are Options; the competitionTeams object is an
association list keyed by competition id. -/
structure Settings where
  apiToken : Option String
  competitionTeams : List (String × CompetitionCapture)
  highlightedTeams : List String
  matchFilterType : Option String
  matchFilterDate : Option Nat
  matchFilterCount : Option Nat
deriving DecidableEq

/-- The default document produced by loadSettings when nothing usable is
stored: in the source it is the object with a single empty competitionTeams
map, every other field absent. -/
def defaultSettings : Settings :=
  { apiToken := none
    competitionTeams := []
    highlightedTeams := []
    matchFilterType := none
    matchFilterDate := none
    matchFilterCount := none }

/-- Outcome of JSON.parse on a stored string: either a settings document or
a thrown parse error (malformed JSON). -/
inductive ParseOutcome where
  | ok (s : Settings)
  | failed
deriving DecidableEq

/-- event-page.js loadSettings (lines 1191-1198): returns the parsed stored
value when present and parseable, and the default document when nothing is
stored or parsing throws.  It never propagates an exception. -/
def loadSettings (stored : Option String) (parse : String → ParseOutcome) : Settings :=
  match stored with
  | none => defaultSettings
  | some raw =>
    match parse raw with
    | .ok s => s
    | .failed => defaultSettings

/-- Outcome of a localStorage.setItem call: success with the new stored
blob, or a thrown storage failure such as quota exceeded. -/
inductive StoreWrite where
  | ok (newStored : Option String)
  | quotaError
deriving DecidableEq

/-- event-page.js saveSettings (lines 1219-1225): attempts the write and, on
a storage failure, swallows the exception with a console warning, leaving
the stored blob unchanged.  The function never throws to its caller, so it
is total here, returning the resulting stored blob. -/
def saveSettings (setItem : String → StoreWrite) (stored : Option String)
    (payload : String) : Option String :=
  match setItem payload with
  | .ok newStored => newStored
  | .quotaError => stored

/-- event-page.js getCompetitionTeams (lines 1201-1210): the union over all
captured competitions of their team lists, each team number uppercased as it
is added to the set.  Membership in the resulting list stands for membership
in the JavaScript Set. -/
def getCompetitionTeams (comps : List CompetitionCapture) : List String :=
  comps.flatMap (fun comp => comp.teams.map String.toUpper)

/-- event-page.js getHighlightedTeams (lines 1213-1216): the stored
highlighted team list, each entry uppercased as it enters the set. -/
def getHighlightedTeams (highlighted : List String) : List String :=
  highlighted.map String.toUpper

/-- event-page.js buildEnhancedTable row highlighting (lines 890-896): the
manual highlight class wins over the competition class; there is no combined
class for rows that are in both sets. -/
def rowClass (competitionTeams highlightedTeams : List String)
    (teamUpper : String) : String :=
  let isCompetition := teamUpper ∈ competitionTeams
  let isHighlighted := teamUpper ∈ highlightedTeams
  if isHighlighted then "vex-highlighted-row"
  else if isCompetition then "vex-competition-row"
  else ""

end EventPage

namespace ContentJs

/-- content.js getCompetitionTeams (lines 209-217): same construction as the
event-page version, over the settings competitionTeams map. -/
def getCompetitionTeams (comps : List EventPage.CompetitionCapture) : List String :=
  comps.flatMap (fun comp => comp.teams.map String.toUpper)

/-- content.js buildCustomTable row highlighting (lines 337-343): rows in
both sets get the dedicated combined class, then competition, then manual,
else no class. -/
def rowClass (competitionTeams manualTeams : List String) (team : String) : String :=
  let isCompetition := team ∈ competitionTeams
  let isManual := team ∈ manualTeams
  if isCompetition ∧ isManual then "vex-both-highlight"
  else if isCompetition then "vex-competition-row"
  else if isManual then "vex-highlighted-row"
  else ""

/-- content.js add-teams handler (lines 630-644), the input parsing step:
split the raw input on commas, trim and uppercase each token, drop empty
tokens. -/
def parseTeamInput (input : String) : List String :=
  ((input.splitOn ",").map (fun t => t.trim.toUpper)).filter (fun t => t ≠ "")

/-- content.js add-teams handler, the loop body (lines 634-638): one
normalized team is appended to the highlighted list unless already
present. -/
def addHighlight (highlighted : List String) (team : String) : List String :=
  if team ∈ highlighted then highlighted else highlighted ++ [team]

/-- content.js add-teams handler, the insertion step: each parsed team is
appended to the highlighted list unless already present. -/
def addHighlightTeams (highlighted : List String) (input : String) : List String :=
  (parseTeamInput input).foldl addHighlight highlighted

/-- content.js buildCustomTable (line 313): the manual team set is the
stored highlighted list with every entry uppercased; a row is manually
highlighted when its (already uppercased) team number is in that set. -/
def isManualTeam (highlighted : List String) (teamUpper : String) : Bool :=
  teamUpper ∈ highlighted.map String.toUpper

/-- One row of the content.js data set as produced by parseApiData
(lines 152-185): the fields consumed by filtering, ranking, statistics and
rendering.  The team number is uppercased at parse time. -/
structure Row where
  team : String
  score : ℚ
  programming : ℚ
  driver : ℚ
  teamName : String
  organization : String
  city : String
  region : String
  country : String
  gradeLevel : String
  eventRegion : String
  affiliations : List String
deriving DecidableEq

/-- The client-side filter values read from the page by getClientFilters
(lines 42-69); empty strings model unset controls. -/
structure ClientFilters where
  eventRegion : String
  countryName : String
  regionName : String
  affiliations : List String
deriving DecidableEq

/-- content.js applyFilters (lines 93-122): keeps a row when every active
client-side filter matches it.  An empty filter value, or the sentinel
All-Countries and All-Regions options, deactivate the corresponding
check. -/
def applyFilters (fs : ClientFilters) (data : List Row) : List Row :=
  data.filter (fun item =>
    (fs.eventRegion = "" || item.eventRegion = fs.eventRegion) &&
    (fs.countryName = "" || fs.countryName = "All Countries" ||
      item.country = fs.countryName) &&
    (fs.regionName = "" || fs.regionName = "All Regions" ||
      item.region = fs.regionName) &&
    (fs.affiliations.isEmpty ||
      fs.affiliations.any (fun aff => item.affiliations.contains aff)))

/-- content.js buildCustomTable (lines 310 and 345): the reference
population for the displayed percentile of a row is the score list of the
filtered data set. -/
def rowPercentile (filteredData : List Row) (item : Row) : Option ℤ :=
  getPercentile item.score (filteredData.map (fun d => d.score))

/-- The statistics record produced by updateStats.  The average, maximum and
median are unguarded in the source: on an empty positive-score population
the JavaScript values are NaN, minus infinity and undefined, all modelled as
none. -/
structure StatsSummary where
  count : Nat
  avg : Option ℚ
  max : Option ℚ
  median : Option ℚ
  avgProgramming : ℚ
  avgDriver : ℚ
deriving DecidableEq

/-- content.js updateStats (lines 397-413): the score statistics are
computed over the strictly positive scores of the filtered data, the median
is the element at index floor of half the length of the ascending-sorted
positive score list, and the autonomous and driver averages are computed
over their own strictly positive subsets, guarded to 0 when empty. -/
def updateStats (filteredData : List Row) : StatsSummary :=
  let scores := (filteredData.map (fun d => d.score)).filter (fun s => decide (0 < s))
  let programming :=
    (filteredData.map (fun d => d.programming)).filter (fun s => decide (0 < s))
  let driver := (filteredData.map (fun d => d.driver)).filter (fun s => decide (0 < s))
  let sortedScores := scores.insertionSort (fun a b => a ≤ b)
  { count := filteredData.length
    avg := if scores.length = 0 then none else some (scores.sum / scores.length)
    max := scores.max?
    median := sortedScores.get? (sortedScores.length / 2)
    avgProgramming :=
      if programming.length = 0 then 0 else programming.sum / programming.length
    avgDriver := if driver.length = 0 then 0 else driver.sum / driver.length }

end ContentJs

namespace EventPage

/-- An HTTP response as seen by fetchWithRetry: its status code and the
parsed Retry-After header in seconds, when present. -/
structure Response where
  status : Nat
  retryAfter : Option Nat
deriving DecidableEq

/-- What one fetch attempt produces: a response, or a network-level failure
(the thrown error, identified by a number). -/
inductive FetchResult where
  | success (r : Response)
  | failure (e : Nat)
deriving DecidableEq

/-- How one call to fetchWithRetry ends: the returned response, or the last
network error thrown after all attempts failed. -/
inductive RetryOutcome where
  | returned (r : Response)
  | threw (e : Nat)
deriving DecidableEq

/-- The delay chosen for a 429 response (event-page.js lines 27-34): the
Retry-After header converted from seconds to milliseconds when present, else
exponential backoff of 2 to the attempt number, in seconds. -/
def delay429 (r : Response) (attempt : Nat) : Nat :=
  match r.retryAfter with
  | some seconds => seconds * 1000
  | none => 2 ^ attempt * 1000

/-- The loop body of fetchWithRetry (event-page.js lines 19-57), with the
network modelled as a map from attempt index to result.  The second
component collects the sleep durations in milliseconds, in order.  The
remaining argument counts the retries still allowed after the current
attempt, so the initial call uses remaining = maxRetries. -/
def fetchAux (world : Nat → FetchResult) : Nat → Nat → RetryOutcome × List Nat
  | attempt, 0 =>
    match world attempt with
    | .success r => (.returned r, [])
    | .failure e => (.threw e, [])
  | attempt, remaining + 1 =>
    match world attempt with
    | .success r =>
      if r.status = 429 then
        let rest := fetchAux world (attempt + 1) remaining
        (rest.1, delay429 r attempt :: rest.2)
      else (.returned r, [])
    | .failure _ =>
      let rest := fetchAux world (attempt + 1) remaining
      (rest.1, 2 ^ attempt * 1000 :: rest.2)

/-- The default maxRetries of fetchWithRetry, giving maxRetries + 1 = 4
total attempts. -/
def defaultMaxRetries : Nat := 3

/-- fetchWithRetry: run the attempt loop from attempt 0 with maxRetries
further attempts allowed. -/
def fetchWithRetry (world : Nat → FetchResult)
    (maxRetries : Nat := defaultMaxRetries) : RetryOutcome × List Nat :=
  fetchAux world 0 maxRetries

/-- One alliance of a match: its colour, score (absent when unscored) and
member team ids. -/
structure Alliance where
  color : String
  score : Option ℤ
  teamIds : List Nat
deriving DecidableEq

/-- One match record from the per-team match list, with the fields read by
fetchMatchData: the update timestamp (absent when the API omits it), the
parent event code and name, and the two alliances. -/
structure MatchRec where
  name : String
  updatedAt : Option Nat
  eventCode : Option String
  eventName : Option String
  alliances : List Alliance
deriving DecidableEq

/-- The scored-match filter of fetchMatchData (lines 575-579): the match
must carry an update timestamp and at least one alliance with a recorded
score. -/
def isScored (m : MatchRec) : Bool :=
  m.updatedAt.isSome && m.alliances.any (fun a => a.score.isSome)

/-- The date of a match, as used by the descending sort. -/
def dateOf (m : MatchRec) : Nat := m.updatedAt.getD 0

/-- The descending-date comparison used by the match sort. -/
def matchDateGE (a b : MatchRec) : Prop := dateOf b ≤ dateOf a

instance : DecidableRel matchDateGE := fun _ _ => Nat.decLe _ _

instance : IsTotal MatchRec matchDateGE :=
  ⟨fun a b => Nat.le_total (dateOf b) (dateOf a)⟩

instance : IsTrans MatchRec matchDateGE :=
  ⟨fun _ _ _ h1 h2 => Nat.le_trans h2 h1⟩

/-- The sort of scored matches by date, most recent first (line 579).  The
JavaScript sort is stable, so any stable sort is a faithful model;
insertion sort is used here. -/
def sortMatchesDesc (ms : List MatchRec) : List MatchRec :=
  ms.insertionSort matchDateGE

/-- The grouping key of a match (line 596): its parent event code, with the
literal unknown fallback when absent. -/
def keyOf (m : MatchRec) : String := m.eventCode.getD "unknown"

/-- The event-code filter predicate (lines 587-589): the parent event code,
uppercased, must equal the uppercased filter; a match without an event code
never passes. -/
def codeMatches (m : MatchRec) (f : String) : Bool :=
  match m.eventCode with
  | some c => c.toUpper = f.toUpper
  | none => false

/-- One entry of the eventMatches map (lines 594-606): the event code, its
display name, the date of the first match inserted for it (the most recent,
since insertion follows the descending match sort) and its matches in
insertion order. -/
structure EventGroup where
  code : String
  name : String
  date : Nat
  matchList : List MatchRec
deriving DecidableEq

/-- Insertion of one match into the event map, preserving the JavaScript
Map insertion order: an existing group gets the match appended, otherwise a
new group is appended at the end. -/
def insertMatch : List EventGroup → MatchRec → List EventGroup
  | [], m =>
    [{ code := keyOf m
       name := if m.eventName.getD "" = "" then keyOf m else m.eventName.getD ""
       date := dateOf m
       matchList := [m] }]
  | g :: gs, m =>
    if g.code = keyOf m then { g with matchList := g.matchList ++ [m] } :: gs
    else g :: insertMatch gs m

/-- The full grouping of a scored match list by parent event. -/
def groupByEvent (ms : List MatchRec) : List EventGroup :=
  ms.foldl insertMatch []

/-- The descending-date comparison used by the event sort. -/
def eventDateGE (a b : EventGroup) : Prop := b.date ≤ a.date

instance : DecidableRel eventDateGE := fun _ _ => Nat.decLe _ _

instance : IsTotal EventGroup eventDateGE :=
  ⟨fun a b => Nat.le_total b.date a.date⟩

instance : IsTrans EventGroup eventDateGE :=
  ⟨fun _ _ _ h1 h2 => Nat.le_trans h2 h1⟩

/-- The sort of event groups by date, most recent first (line 609), again
as the stable insertion sort. -/
def sortEventsDesc (gs : List EventGroup) : List EventGroup :=
  gs.insertionSort eventDateGE

/-- The effective window type (line 619): the stored value, with absent or
empty falling back to since_date. -/
def effectiveFilterType (s : Settings) : String :=
  match s.matchFilterType with
  | some t => if t = "" then "since_date" else t
  | none => "since_date"

/-- The effective window date (line 620): the stored date, with the default
filter date (two months before now, passed in here) as fallback. -/
def effectiveFilterDate (s : Settings) (defaultDate : Nat) : Nat :=
  match s.matchFilterDate with
  | some d => d
  | none => defaultDate

/-- The effective last-n-events count (line 621): the stored count, with 0
or absent falling back to 5. -/
def effectiveFilterCount (s : Settings) : Nat :=
  match s.matchFilterCount with
  | some n => if n = 0 then 5 else n
  | none => 5

/-- The window applied to the sorted event list (lines 623-631): all events,
the first filterCount events, or the events dated on or after the since
date. -/
def selectEvents (sortedEvents : List EventGroup) (s : Settings)
    (defaultDate : Nat) : List EventGroup :=
  let filterType := effectiveFilterType s
  if filterType = "all_events" then sortedEvents
  else if filterType = "last_n_events" then
    sortedEvents.take (effectiveFilterCount s)
  else
    sortedEvents.filter (fun g => decide (effectiveFilterDate s defaultDate ≤ g.date))

/-- The match-selection pipeline of fetchMatchData (lines 575-636): filter
to scored matches and sort them by date descending; when an explicit event
code filter is supplied, keep only that event and skip the configured
window, else group by event, sort events by date descending and apply the
configured window; finally flatten the selected events back to matches. -/
def selectRecentMatches (matchList : List MatchRec) (eventCodeFilter : Option String)
    (s : Settings) (defaultDate : Nat) : List MatchRec :=
  let scoredSorted := sortMatchesDesc (matchList.filter isScored)
  let scoredMatches :=
    match eventCodeFilter with
    | some f => scoredSorted.filter (fun m => codeMatches m f)
    | none => scoredSorted
  let sortedEvents := sortEventsDesc (groupByEvent scoredMatches)
  let filteredEvents :=
    match eventCodeFilter with
    | some _ => sortedEvents
    | none => selectEvents sortedEvents s defaultDate
  filteredEvents.flatMap (fun g => g.matchList)

/-- A JavaScript Map lookup on an association list keyed by strings. -/
def mapGet (m : List (String × α)) (k : String) : Option α :=
  (m.find? (fun p => p.1 = k)).map (fun p => p.2)

/-- One team identity record scraped from the event page by extractTeams
(lines 143-216); the team number is uppercased during extraction. -/
structure TeamIdentity where
  team : String
  teamName : String
  organization : String
  location : String
deriving DecidableEq

/-- One entry of the skillsData map, as built by fetchSkillsData or
fetchEventSkillsData: best combined, programming and driver scores plus
team metadata. -/
structure SkillsRecord where
  teamId : Option Nat
  score : ℚ
  programming : ℚ
  driver : ℚ
  gradeLevel : String
  city : String
  region : String
  country : String
deriving DecidableEq

/-- One match detail stored by fetchMatchData for the detail view
(lines 665-680). -/
structure MatchDetail where
  name : String
  eventName : String
  eventCode : String
  teamColor : String
  teamNumbers : List String
  teamScore : ℤ
  opponentColor : Option String
  opponentNumbers : List String
  opponentScore : Option ℤ
  date : Nat
deriving DecidableEq

/-- The aggregate returned by fetchMatchData (lines 692-697): rounded
average alliance score, maximum, match count and the detail list. -/
structure MatchAggregate where
  average : ℤ
  max : ℤ
  matchCount : Nat
  matchList : List MatchDetail
deriving DecidableEq

/-- One merged row of the enhanced event table. -/
structure MergedTeam where
  team : String
  teamName : String
  organization : String
  location : String
  teamId : Option Nat
  score : ℚ
  programming : ℚ
  driver : ℚ
  gradeLevel : String
  city : String
  region : String
  country : String
  recentMatchAvg : Option ℤ
  recentMatchMax : Option ℤ
  recentMatchCount : Nat
  recentMatches : List MatchDetail
deriving DecidableEq

/-- The city fallback of the merge (line 790): the part of the roster
location before the first comma, trimmed. -/
def locationCity (location : String) : String :=
  ((location.splitOn ",").headD "").trim

/-- The merge of one roster entry with the skills and match maps
(event-page.js buildEnhancedTable, lines 780-798).  Lookups that miss yield
the JavaScript falsy defaults spelled in the source: 0 for scores, null for
ids and match averages, the empty string for metadata, the location-derived
fallback for the city, 0 for the match count and the empty list for the
match details.  The or-null on the match average and maximum also maps a
stored 0 to null, mirroring the JavaScript or operator. -/
def mergeTeam (skillsData : List (String × SkillsRecord))
    (matchAverages : List (String × MatchAggregate)) (team : TeamIdentity) :
    MergedTeam :=
  let skills := mapGet skillsData team.team
  let matchAvg := mapGet matchAverages team.team
  { team := team.team
    teamName := team.teamName
    organization := team.organization
    location := team.location
    teamId :=
      match skills with
      | some sk =>
        match sk.teamId with
        | some i => if i = 0 then none else some i
        | none => none
      | none => none
    score := match skills with | some sk => sk.score | none => 0
    programming := match skills with | some sk => sk.programming | none => 0
    driver := match skills with | some sk => sk.driver | none => 0
    gradeLevel := match skills with | some sk => sk.gradeLevel | none => ""
    city :=
      let skillsCity := match skills with | some sk => sk.city | none => ""
      if skillsCity = "" then locationCity team.location else skillsCity
    region := match skills with | some sk => sk.region | none => ""
    country := match skills with | some sk => sk.country | none => ""
    recentMatchAvg :=
      match matchAvg with
      | some ma => if ma.average = 0 then none else some ma.average
      | none => none
    recentMatchMax :=
      match matchAvg with
      | some ma => if ma.max = 0 then none else some ma.max
      | none => none
    recentMatchCount := match matchAvg with | some ma => ma.matchCount | none => 0
    recentMatches := match matchAvg with | some ma => ma.matchList | none => [] }

/-- The full merge step of buildEnhancedTable: one merged row per roster
entry, in roster order. -/
def buildMergedData (eventTeams : List TeamIdentity)
    (skillsData : List (String × SkillsRecord))
    (matchAverages : List (String × MatchAggregate)) : List MergedTeam :=
  eventTeams.map (mergeTeam skillsData matchAverages)

/-- One award entry of the eventAwards map. -/
structure AwardRec where
  name : String
  event : String
  eventCode : String
  order : Nat
deriving DecidableEq

/-- The per-row award lookup of buildEnhancedTable (line 874): the award
list stored under the uppercased team number, or the empty list. -/
def awardsForTeam (eventAwards : List (String × List AwardRec))
    (team : String) : List AwardRec :=
  (mapGet eventAwards team.toUpper).getD []

/-- The reference score population collected by buildEnhancedTable
(lines 814-815): the scores of the whole skills map when one was fetched,
else the strictly positive scores of the merged rows. -/
def allScoresSelection (skillsData : Option (List (String × SkillsRecord)))
    (mergedData : List MergedTeam) : List ℚ :=
  match skillsData with
  | some sd => sd.map (fun p => p.2.score)
  | none => (mergedData.map (fun t => t.score)).filter (fun s => decide (0 < s))

/-- The event statistics of buildEnhancedTable (lines 917-921), over the
strictly positive merged scores: arithmetic mean, maximum and the element
at index floor of half the length of the ascending-sorted list.  The
enclosing guard keeps the source from rendering these when no positive
score exists; the unguarded values are modelled as none on that empty
population. -/
def eventStats (mergedData : List MergedTeam) : Option ℚ × Option ℚ × Option ℚ :=
  let scores := (mergedData.map (fun t => t.score)).filter (fun s => decide (0 < s))
  let sortedScores := scores.insertionSort (fun a b => a ≤ b)
  ( if scores.length = 0 then none else some (scores.sum / scores.length)
  , scores.max?
  , sortedScores.get? (sortedScores.length / 2) )

end EventPage

namespace ContentJs

/-- A row carrying given scores and blank metadata, for concrete
statistics examples. -/
def rowOfScores (score programming driver : ℚ) : Row :=
  { team := "", score := score, programming := programming, driver := driver
    teamName := "", organization := "", city := "", region := "", country := ""
    gradeLevel := "", eventRegion := "", affiliations := [] }

end ContentJs

namespace EventPage

/-- A merged row carrying a given combined score and defaults elsewhere,
for concrete statistics examples. -/
def mergedOfScore (score : ℚ) : MergedTeam :=
  { team := "", teamName := "", organization := "", location := ""
    teamId := none, score := score, programming := 0, driver := 0
    gradeLevel := "", city := "", region := "", country := ""
    recentMatchAvg := none, recentMatchMax := none
    recentMatchCount := 0, recentMatches := [] }

end EventPage


namespace ContentJs

/-- Concrete rows for the percentile reference-population example: a
high-score team in region X and a low-score team in region Y. -/
def sampleRowA : Row :=
  { rowOfScores 20 0 0 with team := "100A", region := "X" }

/-- The second concrete row. -/
def sampleRowB : Row :=
  { rowOfScores 10 0 0 with team := "200B", region := "Y" }

/-- A client filter restricting to region X. -/
def regionFilterX : ClientFilters :=
  { eventRegion := "", countryName := "", regionName := "X", affiliations := [] }

/-- A client filter with every control unset. -/
def emptyFilters : ClientFilters :=
  { eventRegion := "", countryName := "", regionName := "", affiliations := [] }

end ContentJs


namespace EventPage

/-- One sample scored match for the window example. -/
def sampleMatch (q code : String) (date : Nat) : MatchRec :=
  { name := q, updatedAt := some date, eventCode := some code
    eventName := some code, alliances := [⟨"red", some 10, [1]⟩] }

/-- Seven scored matches spanning seven distinct events, listed out of date
order. -/
def sampleMatches : List MatchRec :=
  [ sampleMatch "Q4" "E4" 40, sampleMatch "Q1" "E1" 70, sampleMatch "Q7" "E7" 10
  , sampleMatch "Q3" "E3" 50, sampleMatch "Q2" "E2" 60, sampleMatch "Q6" "E6" 20
  , sampleMatch "Q5" "E5" 30 ]

/-- Settings configured to the last-3-events window. -/
def sampleWindowSettings : Settings :=
  { apiToken := none, competitionTeams := [], highlightedTeams := []
    matchFilterType := some "last_n_events", matchFilterDate := none
    matchFilterCount := some 3 }

end EventPage


/-! ## Theorems -/

/-- C10: the two getPercentile implementations agree on every score and
every non-empty reference population; on the empty population the
content.js version performs the unguarded zero division (modelled as none)
while the event-page version returns 0. -/
theorem percentile_implementations_agree :
    (∀ (score : ℚ) (allScores : List ℚ), allScores ≠ [] →
      ContentJs.getPercentile score allScores =
        some (EventPage.getPercentile score allScores)) ∧
    (∀ score : ℚ, ContentJs.getPercentile score [] = none ∧
      EventPage.getPercentile score [] = 0) := by
  constructor
  · intro score allScores h
    have hl : allScores.length ≠ 0 := by simpa using h
    simp [ContentJs.getPercentile, EventPage.getPercentile, hl]
  · intro score
    simp [ContentJs.getPercentile, EventPage.getPercentile]

/-- Witness for C10 at a concrete score and population. -/
theorem percentile_implementations_agree_witness :
    ([(5 : ℚ), 20] ≠ []) ∧
    ContentJs.getPercentile 10 [5, 20] =
      some (EventPage.getPercentile 10 [5, 20]) :=
  ⟨by simp, percentile_implementations_agree.1 10 [5, 20] (by simp)⟩

/-- C9: loading settings never propagates a failure: nothing stored or an
unparseable stored string yields the default document, whose
competitionTeams map is empty; saving swallows a storage failure, leaving
the stored blob unchanged rather than throwing. -/
theorem settings_load_save_resilient :
    (∀ parse, EventPage.loadSettings none parse = EventPage.defaultSettings) ∧
    (∀ raw parse, parse raw = EventPage.ParseOutcome.failed →
      EventPage.loadSettings (some raw) parse = EventPage.defaultSettings) ∧
    EventPage.defaultSettings.competitionTeams = [] ∧
    (∀ setItem stored payload, setItem payload = EventPage.StoreWrite.quotaError →
      EventPage.saveSettings setItem stored payload = stored) := by
  refine ⟨fun parse => rfl, ?_, rfl, ?_⟩
  · intro raw parse h
    simp [EventPage.loadSettings, h]
  · intro setItem stored payload h
    simp [EventPage.saveSettings, h]

/-- Witness for C9: a parser that always fails and a store that always hits
its quota. -/
theorem settings_load_save_resilient_witness :
    ((fun _ : String => EventPage.ParseOutcome.failed) "bad-json" =
      EventPage.ParseOutcome.failed) ∧
    EventPage.loadSettings (some "bad-json") (fun _ => EventPage.ParseOutcome.failed) =
      EventPage.defaultSettings ∧
    ((fun _ : String => EventPage.StoreWrite.quotaError) "payload" =
      EventPage.StoreWrite.quotaError) ∧
    EventPage.saveSettings (fun _ => EventPage.StoreWrite.quotaError)
      (some "old-blob") "payload" = some "old-blob" :=
  ⟨rfl,
   settings_load_save_resilient.2.1 "bad-json" _ rfl,
   rfl,
   settings_load_save_resilient.2.2.2 _ (some "old-blob") "payload" rfl⟩

/-- C6 counterexample: on the event page a row that is in both the captured
competition set and the manual set is styled exactly like a manual-only
row; there is no combined styling there, unlike content.js. -/
theorem rowClass_no_combined_class_on_event_page :
    EventPage.rowClass ["1234A"] ["1234A"] "1234A" =
      EventPage.rowClass [] ["1234A"] "1234A" ∧
    EventPage.rowClass ["1234A"] ["1234A"] "1234A" ≠ "vex-both-highlight" ∧
    ContentJs.rowClass ["1234A"] ["1234A"] "1234A" = "vex-both-highlight" := by
  refine ⟨rfl, by decide, rfl⟩

/-- C6 amended: the classification depends only on membership of the team
number in the two sets; content.js distinguishes all four cases with a
dedicated combined class, while the event page gives a both-member row the
manual class (manual wins, no combined class). -/
theorem rowClass_classification :
    ∀ (comp man : List String) (t : String),
    (t ∈ comp → t ∈ man →
      ContentJs.rowClass comp man t = "vex-both-highlight" ∧
      EventPage.rowClass comp man t = "vex-highlighted-row") ∧
    (t ∈ comp → t ∉ man →
      ContentJs.rowClass comp man t = "vex-competition-row" ∧
      EventPage.rowClass comp man t = "vex-competition-row") ∧
    (t ∉ comp → t ∈ man →
      ContentJs.rowClass comp man t = "vex-highlighted-row" ∧
      EventPage.rowClass comp man t = "vex-highlighted-row") ∧
    (t ∉ comp → t ∉ man →
      ContentJs.rowClass comp man t = "" ∧
      EventPage.rowClass comp man t = "") ∧
    (∀ (comp2 man2 : List String) (t2 : String),
      (t ∈ comp ↔ t2 ∈ comp2) → (t ∈ man ↔ t2 ∈ man2) →
      ContentJs.rowClass comp man t = ContentJs.rowClass comp2 man2 t2 ∧
      EventPage.rowClass comp man t = EventPage.rowClass comp2 man2 t2) := by
  intro comp man t
  refine ⟨?_, ?_, ?_, ?_, ?_⟩
  · intro h1 h2; simp [ContentJs.rowClass, EventPage.rowClass, h1, h2]
  · intro h1 h2; simp [ContentJs.rowClass, EventPage.rowClass, h1, h2]
  · intro h1 h2; simp [ContentJs.rowClass, EventPage.rowClass, h1, h2]
  · intro h1 h2; simp [ContentJs.rowClass, EventPage.rowClass, h1, h2]
  · intro comp2 man2 t2 hc hm
    by_cases h1 : t ∈ comp <;> by_cases h2 : t ∈ man
    · have h1' := hc.mp h1
      have h2' := hm.mp h2
      simp [ContentJs.rowClass, EventPage.rowClass, h1, h2, h1', h2']
    · have h1' := hc.mp h1
      have h2' : t2 ∉ man2 := fun hh => h2 (hm.mpr hh)
      simp [ContentJs.rowClass, EventPage.rowClass, h1, h2, h1', h2']
    · have h1' : t2 ∉ comp2 := fun hh => h1 (hc.mpr hh)
      have h2' := hm.mp h2
      simp [ContentJs.rowClass, EventPage.rowClass, h1, h2, h1', h2']
    · have h1' : t2 ∉ comp2 := fun hh => h1 (hc.mpr hh)
      have h2' : t2 ∉ man2 := fun hh => h2 (hm.mpr hh)
      simp [ContentJs.rowClass, EventPage.rowClass, h1, h2, h1', h2']

/-- Witness for C6 amended at a concrete both-member row. -/
theorem rowClass_classification_witness :
    ("7700B" ∈ ["7700B"]) ∧
    ContentJs.rowClass ["7700B"] ["7700B"] "7700B" = "vex-both-highlight" ∧
    EventPage.rowClass ["7700B"] ["7700B"] "7700B" = "vex-highlighted-row" :=
  ⟨by decide,
   ((rowClass_classification ["7700B"] ["7700B"] "7700B").1
      (by decide) (by decide)).1,
   ((rowClass_classification ["7700B"] ["7700B"] "7700B").1
      (by decide) (by decide)).2⟩

/-- C7: every summary statistic ignores rows whose relevant value is not
strictly positive (appending such a row changes nothing), and the median is
the element at index floor of half the length of the ascending-sorted
positive-score list, so the even-length population 10, 20, 30, 40 has
median 30, the upper-middle element, not the interpolated 25.  The same
median policy holds for the event-page statistics. -/
theorem stats_positive_population_and_median_policy :
    (∀ (data : List ContentJs.Row) (t : ContentJs.Row),
      t.score ≤ 0 → t.programming ≤ 0 → t.driver ≤ 0 →
      (ContentJs.updateStats (data ++ [t])).avg = (ContentJs.updateStats data).avg ∧
      (ContentJs.updateStats (data ++ [t])).max = (ContentJs.updateStats data).max ∧
      (ContentJs.updateStats (data ++ [t])).median =
        (ContentJs.updateStats data).median ∧
      (ContentJs.updateStats (data ++ [t])).avgProgramming =
        (ContentJs.updateStats data).avgProgramming ∧
      (ContentJs.updateStats (data ++ [t])).avgDriver =
        (ContentJs.updateStats data).avgDriver) ∧
    (ContentJs.updateStats
      [ContentJs.rowOfScores 40 0 0, ContentJs.rowOfScores 10 0 0,
       ContentJs.rowOfScores 0 0 0, ContentJs.rowOfScores 30 0 0,
       ContentJs.rowOfScores 20 0 0]).median = some 30 ∧
    (30 : ℚ) ≠ 25 ∧
    (EventPage.eventStats
      [EventPage.mergedOfScore 10, EventPage.mergedOfScore 20,
       EventPage.mergedOfScore 30, EventPage.mergedOfScore 40]).2.2 = some 30 := by
  refine ⟨?_, by decide, by norm_num, by decide⟩
  intro data t hts htp htd
  have h1 : ((data ++ [t]).map (fun d => d.score)).filter (fun s => decide (0 < s)) =
      (data.map (fun d => d.score)).filter (fun s => decide (0 < s)) := by
    simp [List.filter_append, decide_eq_false (not_lt.mpr hts)]
  have h2 : ((data ++ [t]).map (fun d => d.programming)).filter
        (fun s => decide (0 < s)) =
      (data.map (fun d => d.programming)).filter (fun s => decide (0 < s)) := by
    simp [List.filter_append, decide_eq_false (not_lt.mpr htp)]
  have h3 : ((data ++ [t]).map (fun d => d.driver)).filter (fun s => decide (0 < s)) =
      (data.map (fun d => d.driver)).filter (fun s => decide (0 < s)) := by
    simp [List.filter_append, decide_eq_false (not_lt.mpr htd)]
  refine ⟨?_, ?_, ?_, ?_, ?_⟩ <;> simp only [ContentJs.updateStats, h1, h2, h3]

/-- Witness for C7: a zero-score row appended to a concrete data set leaves
the statistics unchanged. -/
theorem stats_positive_population_witness :
    ((ContentJs.rowOfScores 0 0 0).score ≤ 0) ∧
    (ContentJs.updateStats
        ([ContentJs.rowOfScores 12 3 4] ++ [ContentJs.rowOfScores 0 0 0])).median =
      (ContentJs.updateStats [ContentJs.rowOfScores 12 3 4]).median :=
  ⟨by norm_num [ContentJs.rowOfScores],
   ((stats_positive_population_and_median_policy.1
      [ContentJs.rowOfScores 12 3 4] (ContentJs.rowOfScores 0 0 0)
      (by norm_num [ContentJs.rowOfScores]) (by norm_num [ContentJs.rowOfScores])
      (by norm_num [ContentJs.rowOfScores])).2.2).1⟩

/-- C2: the merged view has exactly one row per roster entry, in roster
order; a roster team missing from the skills map gets zero and empty
defaults (with the city falling back to the roster location), a team
missing from the match map gets null and empty match fields, a team missing
from the award map gets no awards; and every row belongs to a roster team,
so ranking-only teams never appear. -/
theorem merge_completeness :
    ∀ (ts : List EventPage.TeamIdentity)
      (sd : List (String × EventPage.SkillsRecord))
      (ma : List (String × EventPage.MatchAggregate)),
    (EventPage.buildMergedData ts sd ma).length = ts.length ∧
    (EventPage.buildMergedData ts sd ma).map (fun r => r.team) =
      ts.map (fun t => t.team) ∧
    (∀ r ∈ EventPage.buildMergedData ts sd ma,
      (EventPage.mapGet sd r.team = none →
        r.score = 0 ∧ r.programming = 0 ∧ r.driver = 0 ∧ r.teamId = none ∧
        r.gradeLevel = "" ∧ r.region = "" ∧ r.country = "" ∧
        r.city = EventPage.locationCity r.location) ∧
      (EventPage.mapGet ma r.team = none →
        r.recentMatchAvg = none ∧ r.recentMatchMax = none ∧
        r.recentMatchCount = 0 ∧ r.recentMatches = [])) ∧
    (∀ r ∈ EventPage.buildMergedData ts sd ma,
      r.team ∈ ts.map (fun t => t.team)) ∧
    (∀ (ea : List (String × List EventPage.AwardRec)) (team : String),
      EventPage.mapGet ea team.toUpper = none →
      EventPage.awardsForTeam ea team = []) := by
  intro ts sd ma
  refine ⟨by simp [EventPage.buildMergedData], ?_, ?_, ?_, ?_⟩
  · simp only [EventPage.buildMergedData, List.map_map]
    rfl
  · intro r hr
    obtain ⟨t, ht, rfl⟩ := List.mem_map.mp hr
    have hteam : (EventPage.mergeTeam sd ma t).team = t.team := rfl
    constructor
    · intro hnone
      rw [hteam] at hnone
      simp [EventPage.mergeTeam, hnone]
    · intro hnone
      rw [hteam] at hnone
      simp [EventPage.mergeTeam, hnone]
  · intro r hr
    obtain ⟨t, ht, rfl⟩ := List.mem_map.mp hr
    exact List.mem_map.mpr ⟨t, ht, rfl⟩
  · intro ea team hnone
    simp [EventPage.awardsForTeam, hnone]

/-- Witness for C2: a two-team roster with skills data for only one team
keeps both rows, the second with default fields. -/
theorem merge_completeness_witness :
    (EventPage.buildMergedData
      [⟨"100A", "Alpha", "Org", "City, ST"⟩, ⟨"200B", "Beta", "Org2", ""⟩]
      [("100A", ⟨some 7, 50, 30, 20, "MS", "C", "R", "US"⟩)] []).length = 2 ∧
    EventPage.mapGet
      [("100A", (⟨some 7, 50, 30, 20, "MS", "C", "R", "US"⟩ : EventPage.SkillsRecord))]
      "200B" = none :=
  ⟨(merge_completeness
      [⟨"100A", "Alpha", "Org", "City, ST"⟩, ⟨"200B", "Beta", "Org2", ""⟩]
      [("100A", ⟨some 7, 50, 30, 20, "MS", "C", "R", "US"⟩)] []).1,
   by decide⟩

/-- Helper: reading back the value of Char.ofNat on a valid code point. -/
theorem char_toNat_ofNat_valid {n : Nat} (h : n.isValidChar) :
    (Char.ofNat n).toNat = n := by
  rw [Char.ofNat, dif_pos h]
  simp [Char.ofNatAux, Char.toNat, UInt32.toNat, BitVec.toNat_ofNatLt]

/-- Helper: Char.toUpper is idempotent. -/
theorem char_toUpper_toUpper (c : Char) : c.toUpper.toUpper = c.toUpper := by
  unfold Char.toUpper
  by_cases h : c.toNat ≥ 97 ∧ c.toNat ≤ 122
  · rw [if_pos h]
    have hv : (c.toNat - 32).isValidChar := Or.inl (by omega)
    rw [char_toNat_ofNat_valid hv]
    rw [if_neg (by omega)]
  · rw [if_neg h, if_neg h]

/-- Helper: String.toUpper is idempotent. -/
theorem string_toUpper_toUpper (s : String) :
    s.toUpper.toUpper = s.toUpper := by
  simp [String.toUpper, String.map_eq, List.map_map, Function.comp_def,
    char_toUpper_toUpper]

/-- Helper: a member of the accumulator stays in it under addHighlight, and
the inserted team is a member afterwards. -/
theorem mem_addHighlight (hl : List String) (team x : String) :
    (x ∈ hl → x ∈ ContentJs.addHighlight hl team) ∧
    team ∈ ContentJs.addHighlight hl team := by
  unfold ContentJs.addHighlight
  by_cases h : team ∈ hl
  · simp only [if_pos h]
    exact ⟨fun hx => hx, h⟩
  · simp only [if_neg h]
    exact ⟨fun hx => List.mem_append.mpr (Or.inl hx),
           List.mem_append.mpr (Or.inr (List.mem_singleton.mpr rfl))⟩

/-- Helper: folding addHighlight never loses accumulator members. -/
theorem mem_foldl_addHighlight_of_mem_acc :
    ∀ (l acc : List String) (x : String), x ∈ acc →
    x ∈ l.foldl ContentJs.addHighlight acc := by
  intro l
  induction l with
  | nil => exact fun _ _ hx => hx
  | cons a as ih =>
    intro acc x hx
    exact ih _ _ ((mem_addHighlight acc a x).1 hx)

/-- Helper: folding addHighlight inserts every element of the fold list. -/
theorem mem_foldl_addHighlight :
    ∀ (l acc : List String) (team : String), team ∈ l →
    team ∈ l.foldl ContentJs.addHighlight acc := by
  intro l
  induction l with
  | nil => intro acc team h; cases h
  | cons a as ih =>
    intro acc team h
    rcases List.mem_cons.mp h with rfl | hmem
    · exact mem_foldl_addHighlight_of_mem_acc as _ team
        (mem_addHighlight acc team team).2
    · exact ih _ team hmem

/-- Helper: every parsed token of the input ends up in the highlighted list
produced by the add-teams handler. -/
theorem mem_addHighlightTeams (hl : List String) (input team : String)
    (h : team ∈ ContentJs.parseTeamInput input) :
    team ∈ ContentJs.addHighlightTeams hl input :=
  mem_foldl_addHighlight _ hl team h

/-- C8: team identity is case-insensitive.  A team inserted by the
add-teams handler in any letter case is found by a membership test in any
other letter case, because the handler uppercases the stored token and the
test uppercases both the stored set and the query; and a captured
competition team is found in the competition set from any casing of the
query, because the set uppercases its members. -/
theorem team_number_case_insensitive :
    (∀ (highlighted : List String) (t u : String),
      t.toUpper = u.toUpper →
      ContentJs.isManualTeam (ContentJs.addHighlight highlighted t.toUpper)
        u.toUpper = true) ∧
    (∀ (highlighted : List String) (input team u : String),
      team ∈ ContentJs.parseTeamInput input → team.toUpper = u.toUpper →
      ContentJs.isManualTeam (ContentJs.addHighlightTeams highlighted input)
        u.toUpper = true) ∧
    (∀ (comps : List EventPage.CompetitionCapture)
       (comp : EventPage.CompetitionCapture) (team v : String),
      comp ∈ comps → team ∈ comp.teams → team.toUpper = v.toUpper →
      v.toUpper ∈ EventPage.getCompetitionTeams comps) := by
  refine ⟨?_, ?_, ?_⟩
  · intro hl t u hcase
    have hx : t.toUpper ∈ ContentJs.addHighlight hl t.toUpper :=
      (mem_addHighlight hl t.toUpper t.toUpper).2
    have hmem2 : (t.toUpper).toUpper ∈
        (ContentJs.addHighlight hl t.toUpper).map String.toUpper :=
      List.mem_map_of_mem _ hx
    rw [string_toUpper_toUpper] at hmem2
    rw [← hcase]
    simpa [ContentJs.isManualTeam] using hmem2
  · intro hl input team u hparse hcase
    have hx : team ∈ ContentJs.addHighlightTeams hl input :=
      mem_addHighlightTeams hl input team hparse
    have hmem2 : team.toUpper ∈
        (ContentJs.addHighlightTeams hl input).map String.toUpper :=
      List.mem_map_of_mem _ hx
    rw [← hcase]
    simpa [ContentJs.isManualTeam] using hmem2
  · intro comps comp team v hc ht hcase
    have hmem : team.toUpper ∈ EventPage.getCompetitionTeams comps := by
      unfold EventPage.getCompetitionTeams
      exact List.mem_flatMap.mpr ⟨comp, hc, List.mem_map_of_mem _ ht⟩
    rwa [hcase] at hmem

/-- Witness for C8 at the concrete casings 1234a and 1234A, and a captured
team 99x queried as 99X. -/
theorem team_number_case_insensitive_witness :
    ("1234a".toUpper = "1234A".toUpper) ∧
    ContentJs.isManualTeam (ContentJs.addHighlight [] "1234a".toUpper)
      "1234A".toUpper = true ∧
    ("99x".toUpper = "99X".toUpper) ∧
    "99X".toUpper ∈
      EventPage.getCompetitionTeams [⟨["99x"], "Event", "40", 0⟩] :=
  have h1 : "1234a".toUpper = "1234A".toUpper := by
    rw [String.toUpper, String.toUpper, String.map_eq, String.map_eq]
    decide
  have h2 : "99x".toUpper = "99X".toUpper := by
    rw [String.toUpper, String.toUpper, String.map_eq, String.map_eq]
    decide
  ⟨h1,
   team_number_case_insensitive.1 [] "1234a" "1234A" h1,
   h2,
   team_number_case_insensitive.2.2 [⟨["99x"], "Event", "40", 0⟩]
     ⟨["99x"], "Event", "40", 0⟩ "99x" "99X" (by decide) (by decide) h2⟩

/-- Helper: a non-429 response is returned immediately at any attempt, with
no further sleeping. -/
theorem fetchAux_non429 (world : Nat → EventPage.FetchResult)
    (attempt remaining : Nat) (r : EventPage.Response)
    (hw : world attempt = EventPage.FetchResult.success r) (hst : r.status ≠ 429) :
    EventPage.fetchAux world attempt remaining = (.returned r, []) := by
  cases remaining <;> simp [EventPage.fetchAux, hw, hst]

/-- Helper: when every attempt in the window yields the same 429 response,
the loop sleeps the 429 delay of each attempt and finally returns that
response. -/
theorem fetchAux_429_exhaustion (world : Nat → EventPage.FetchResult)
    (r : EventPage.Response) (hst : r.status = 429) :
    ∀ (remaining attempt : Nat),
    (∀ j, attempt ≤ j → j ≤ attempt + remaining →
      world j = EventPage.FetchResult.success r) →
    EventPage.fetchAux world attempt remaining =
      (.returned r,
       (List.range remaining).map (fun i => EventPage.delay429 r (attempt + i))) := by
  intro remaining
  induction remaining with
  | zero =>
    intro attempt hall
    have hw := hall attempt le_rfl (by omega)
    simp [EventPage.fetchAux, hw]
  | succ rem ih =>
    intro attempt hall
    have hw := hall attempt le_rfl (by omega)
    have hrest := ih (attempt + 1) (fun j h1 h2 => hall j (by omega) (by omega))
    have hmapeq : (List.range rem).map
          (fun i => EventPage.delay429 r (attempt + 1 + i)) =
        (List.range rem).map (fun i => EventPage.delay429 r (attempt + (i + 1))) :=
      List.map_congr_left (fun i _ => by
        have harith : attempt + 1 + i = attempt + (i + 1) := by omega
        rw [harith])
    simp [EventPage.fetchAux, hw, hst, hrest, List.range_succ_eq_map,
      List.map_map, Function.comp_def, hmapeq]

/-- Helper: when every attempt in the window fails at the network level,
the loop sleeps the exponential backoff of each attempt and finally throws
the last failure. -/
theorem fetchAux_failure_exhaustion (world : Nat → EventPage.FetchResult)
    (e : Nat → Nat) :
    ∀ (remaining attempt : Nat),
    (∀ j, attempt ≤ j → j ≤ attempt + remaining →
      world j = EventPage.FetchResult.failure (e j)) →
    EventPage.fetchAux world attempt remaining =
      (.threw (e (attempt + remaining)),
       (List.range remaining).map (fun i => 2 ^ (attempt + i) * 1000)) := by
  intro remaining
  induction remaining with
  | zero =>
    intro attempt hall
    have hw := hall attempt le_rfl (by omega)
    simp [EventPage.fetchAux, hw]
  | succ rem ih =>
    intro attempt hall
    have hw := hall attempt le_rfl (by omega)
    have hrest := ih (attempt + 1) (fun j h1 h2 => hall j (by omega) (by omega))
    have hmapeq : (List.range rem).map (fun i => 2 ^ (attempt + 1 + i) * 1000) =
        (List.range rem).map (fun i => 2 ^ (attempt + (i + 1)) * 1000) :=
      List.map_congr_left (fun i _ => by
        have harith : attempt + 1 + i = attempt + (i + 1) := by omega
        rw [harith])
    have harith2 : attempt + 1 + rem = attempt + (rem + 1) := by omega
    simp [EventPage.fetchAux, hw, hrest, List.range_succ_eq_map,
      List.map_map, Function.comp_def, hmapeq, harith2]

/-- Helper: the loop sleeps at most remaining times. -/
theorem fetchAux_sleeps_le :
    ∀ (remaining attempt : Nat) (world : Nat → EventPage.FetchResult),
    (EventPage.fetchAux world attempt remaining).2.length ≤ remaining := by
  intro remaining
  induction remaining with
  | zero =>
    intro attempt world
    cases hw : world attempt <;> simp [EventPage.fetchAux, hw]
  | succ rem ih =>
    intro attempt world
    cases hw : world attempt with
    | success r =>
      by_cases hst : r.status = 429
      · simp only [EventPage.fetchAux, hw, if_pos hst, List.length_cons]
        exact Nat.succ_le_succ (ih _ _)
      · simp [EventPage.fetchAux, hw, hst]
    | failure e =>
      simp only [EventPage.fetchAux, hw, List.length_cons]
      exact Nat.succ_le_succ (ih _ _)

/-- C3: fetchWithRetry returns any non-429 response immediately without
sleeping; a 429 delay is the Retry-After header in milliseconds when
present, else 2 to the attempt number seconds; a run of 429 responses is
retried with those delays and, once attempts are exhausted, the last 429
response is returned rather than thrown; a run of network failures is
retried with exponential backoff and the last failure is thrown after
exhaustion; the number of sleeps is bounded by maxRetries, and the default
gives 4 total attempts. -/
theorem fetchWithRetry_policy :
    (∀ (world : Nat → EventPage.FetchResult) (m : Nat) (r : EventPage.Response),
      world 0 = EventPage.FetchResult.success r → r.status ≠ 429 →
      EventPage.fetchWithRetry world m = (.returned r, [])) ∧
    (∀ (world : Nat → EventPage.FetchResult) (attempt remaining : Nat)
       (r : EventPage.Response),
      world attempt = EventPage.FetchResult.success r → r.status ≠ 429 →
      EventPage.fetchAux world attempt remaining = (.returned r, [])) ∧
    (∀ (r : EventPage.Response) (attempt seconds : Nat),
      (r.retryAfter = some seconds →
        EventPage.delay429 r attempt = seconds * 1000) ∧
      (r.retryAfter = none →
        EventPage.delay429 r attempt = 2 ^ attempt * 1000)) ∧
    (∀ (world : Nat → EventPage.FetchResult) (m : Nat) (r : EventPage.Response),
      (∀ j, j ≤ m → world j = EventPage.FetchResult.success r) →
      r.status = 429 →
      EventPage.fetchWithRetry world m =
        (.returned r, (List.range m).map (fun i => EventPage.delay429 r i))) ∧
    (∀ (world : Nat → EventPage.FetchResult) (m : Nat) (e : Nat → Nat),
      (∀ j, j ≤ m → world j = EventPage.FetchResult.failure (e j)) →
      EventPage.fetchWithRetry world m =
        (.threw (e m), (List.range m).map (fun i => 2 ^ i * 1000))) ∧
    (∀ (world : Nat → EventPage.FetchResult) (m : Nat),
      (EventPage.fetchWithRetry world m).2.length ≤ m) ∧
    EventPage.defaultMaxRetries + 1 = 4 := by
  refine ⟨?_, ?_, ?_, ?_, ?_, ?_, rfl⟩
  · intro world m r hw hst
    exact fetchAux_non429 world 0 m r hw hst
  · intro world attempt remaining r hw hst
    exact fetchAux_non429 world attempt remaining r hw hst
  · intro r attempt seconds
    constructor
    · intro h; simp [EventPage.delay429, h]
    · intro h; simp [EventPage.delay429, h]
  · intro world m r hall hst
    have h := fetchAux_429_exhaustion world r hst m 0
      (fun j h1 h2 => hall j (by omega))
    simpa [EventPage.fetchWithRetry] using h
  · intro world m e hall
    have h := fetchAux_failure_exhaustion world e m 0
      (fun j h1 h2 => hall j (by omega))
    simpa [EventPage.fetchWithRetry] using h
  · intro world m
    exact fetchAux_sleeps_le m 0 world

/-- Witness for C3: a server that always answers 429 with Retry-After of 2
seconds, given one retry, sleeps 2000 milliseconds and then returns the 429
response. -/
theorem fetchWithRetry_policy_witness :
    ((fun _ : Nat => EventPage.FetchResult.success ⟨429, some 2⟩) 0 =
      EventPage.FetchResult.success ⟨429, some 2⟩) ∧
    EventPage.fetchWithRetry
      (fun _ => EventPage.FetchResult.success ⟨429, some 2⟩) 1 =
      (.returned ⟨429, some 2⟩, [2000]) := by
  refine ⟨rfl, ?_⟩
  have h := fetchWithRetry_policy.2.2.2.1
    (fun _ => EventPage.FetchResult.success ⟨429, some 2⟩) 1 ⟨429, some 2⟩
    (fun j _ => rfl) rfl
  simpa [EventPage.delay429] using h

/-- C1 counterexample: with the full fetched ranking data present (two
teams, scores 20 and 10) and an active region filter keeping only the
higher-scored team, the percentile displayed for that team is 0, computed
against the filtered rows alone, while the percentile against the full
fetched population is 50 — so the displayed reference population is exactly
the visible filtered rows, not the broadest available one. -/
theorem displayed_percentile_uses_filtered_rows :
    ContentJs.applyFilters ContentJs.regionFilterX
      [ContentJs.sampleRowA, ContentJs.sampleRowB] = [ContentJs.sampleRowA] ∧
    ContentJs.rowPercentile
      (ContentJs.applyFilters ContentJs.regionFilterX
        [ContentJs.sampleRowA, ContentJs.sampleRowB])
      ContentJs.sampleRowA = some 0 ∧
    ContentJs.getPercentile ContentJs.sampleRowA.score
      ([ContentJs.sampleRowA, ContentJs.sampleRowB].map (fun d => d.score)) =
      some 50 ∧
    ContentJs.rowPercentile
      (ContentJs.applyFilters ContentJs.regionFilterX
        [ContentJs.sampleRowA, ContentJs.sampleRowB])
      ContentJs.sampleRowA ≠
    ContentJs.getPercentile ContentJs.sampleRowA.score
      ([ContentJs.sampleRowA, ContentJs.sampleRowB].map (fun d => d.score)) := by
  have hfilter : ContentJs.applyFilters ContentJs.regionFilterX
      [ContentJs.sampleRowA, ContentJs.sampleRowB] = [ContentJs.sampleRowA] := by
    decide
  have hvis : ContentJs.rowPercentile
      (ContentJs.applyFilters ContentJs.regionFilterX
        [ContentJs.sampleRowA, ContentJs.sampleRowB])
      ContentJs.sampleRowA = some 0 := by
    rw [hfilter]
    norm_num [ContentJs.rowPercentile, ContentJs.getPercentile,
      ContentJs.sampleRowA, ContentJs.rowOfScores, jsRound]
  have hfull : ContentJs.getPercentile ContentJs.sampleRowA.score
      ([ContentJs.sampleRowA, ContentJs.sampleRowB].map (fun d => d.score)) =
      some 50 := by
    norm_num [ContentJs.getPercentile, ContentJs.sampleRowA, ContentJs.sampleRowB,
      ContentJs.rowOfScores, jsRound]
  refine ⟨hfilter, hvis, hfull, ?_⟩
  rw [hvis, hfull]
  decide

/-- C1 amended: the event-page enrichment selects the full ranking map
scores as the reference population when a ranking map is present, else the
merged set's positive scores; the percentile actually displayed, on the
skills standings page, is computed against the filtered data set's scores
— the visible rows — and coincides with the full fetched population only
when no client filter is active. -/
theorem percentile_reference_population :
    ∀ (sd : List (String × EventPage.SkillsRecord))
      (merged : List EventPage.MergedTeam) (fs : ContentJs.ClientFilters)
      (data : List ContentJs.Row) (item : ContentJs.Row),
    EventPage.allScoresSelection (some sd) merged =
      sd.map (fun p => p.2.score) ∧
    EventPage.allScoresSelection none merged =
      (merged.map (fun t => t.score)).filter (fun s => decide (0 < s)) ∧
    ContentJs.rowPercentile (ContentJs.applyFilters fs data) item =
      ContentJs.getPercentile item.score
        ((ContentJs.applyFilters fs data).map (fun d => d.score)) ∧
    (fs = ContentJs.emptyFilters → ContentJs.applyFilters fs data = data) := by
  intro sd merged fs data item
  refine ⟨rfl, rfl, rfl, ?_⟩
  intro hfs
  subst hfs
  simp [ContentJs.applyFilters, ContentJs.emptyFilters]

/-- Witness for C1 amended: with no active filter the displayed population
is the full fetched data set. -/
theorem percentile_reference_population_witness :
    (ContentJs.emptyFilters = ContentJs.emptyFilters) ∧
    ContentJs.applyFilters ContentJs.emptyFilters
      [ContentJs.sampleRowA, ContentJs.sampleRowB] =
      [ContentJs.sampleRowA, ContentJs.sampleRowB] :=
  ⟨rfl,
   (percentile_reference_population [] [] ContentJs.emptyFilters
     [ContentJs.sampleRowA, ContentJs.sampleRowB] ContentJs.sampleRowA).2.2.2 rfl⟩

namespace EventPage

/-- Helper: insertMatch preserves the invariant that every match in a group
carries the group's event code. -/
theorem insertMatch_key_invariant (m : MatchRec) :
    ∀ (gs : List EventGroup),
    (∀ g ∈ gs, ∀ x ∈ g.matchList, keyOf x = g.code) →
    ∀ g ∈ insertMatch gs m, ∀ x ∈ g.matchList, keyOf x = g.code := by
  intro gs
  induction gs with
  | nil =>
    intro _ g hg x hx
    simp only [insertMatch, List.mem_singleton] at hg
    subst hg
    simp only [List.mem_singleton] at hx
    subst hx
    rfl
  | cons g0 gs ih =>
    intro h g hg x hx
    by_cases hc : g0.code = keyOf m
    · simp only [insertMatch, if_pos hc] at hg
      rcases List.mem_cons.mp hg with rfl | hgs
      · rcases List.mem_append.mp hx with h1 | h2
        · exact h g0 (List.mem_cons_self _ _) x h1
        · have hxm : x = m := List.mem_singleton.mp h2
          subst hxm
          exact hc.symm
      · exact h g (List.mem_cons_of_mem _ hgs) x hx
    · simp only [insertMatch, if_neg hc] at hg
      rcases List.mem_cons.mp hg with rfl | hgs
      · exact h g (List.mem_cons_self _ _) x hx
      · exact ih (fun g2 hg2 => h g2 (List.mem_cons_of_mem _ hg2)) g hgs x hx

/-- Helper: the code list of insertMatch is the old code list, extended by
the new key exactly when it was absent. -/
theorem insertMatch_codes (gs : List EventGroup) (m : MatchRec) :
    (insertMatch gs m).map (fun g => g.code) =
      if keyOf m ∈ gs.map (fun g => g.code) then gs.map (fun g => g.code)
      else gs.map (fun g => g.code) ++ [keyOf m] := by
  induction gs with
  | nil => simp [insertMatch]
  | cons g0 gs ih =>
    by_cases hc : g0.code = keyOf m
    · simp [insertMatch, hc]
    · have hne : ¬ keyOf m = g0.code := fun hh => hc hh.symm
      simp only [insertMatch, if_neg hc, List.map_cons, ih, List.mem_cons]
      by_cases hm : keyOf m ∈ gs.map (fun g => g.code)
      · simp [hm, hne]
      · simp [hm, hne]

/-- Helper: insertMatch keeps the group codes without duplicates. -/
theorem insertMatch_codes_nodup (gs : List EventGroup) (m : MatchRec)
    (h : (gs.map (fun g => g.code)).Nodup) :
    ((insertMatch gs m).map (fun g => g.code)).Nodup := by
  rw [insertMatch_codes]
  split
  · exact h
  · next hnot => simp [List.nodup_append, h, hnot]

/-- Helper: the matches stored across the groups after insertMatch are the
previous ones together with the inserted match. -/
theorem mem_matchList_insertMatch (gs : List EventGroup) (m x : MatchRec) :
    (∃ g ∈ insertMatch gs m, x ∈ g.matchList) ↔
    (∃ g ∈ gs, x ∈ g.matchList) ∨ x = m := by
  induction gs with
  | nil => simp [insertMatch]
  | cons g0 gs ih =>
    by_cases hc : g0.code = keyOf m
    · simp only [insertMatch, if_pos hc]
      constructor
      · rintro ⟨g, hg, hx⟩
        rcases List.mem_cons.mp hg with rfl | hgs
        · rcases List.mem_append.mp hx with h1 | h2
          · exact Or.inl ⟨g0, List.mem_cons_self _ _, h1⟩
          · exact Or.inr (List.mem_singleton.mp h2)
        · exact Or.inl ⟨g, List.mem_cons_of_mem _ hgs, hx⟩
      · rintro (⟨g, hg, hx⟩ | rfl)
        · rcases List.mem_cons.mp hg with rfl | hgs
          · exact ⟨_, List.mem_cons_self _ _, List.mem_append.mpr (Or.inl hx)⟩
          · exact ⟨g, List.mem_cons_of_mem _ hgs, hx⟩
        · exact ⟨_, List.mem_cons_self _ _,
            List.mem_append.mpr (Or.inr (List.mem_singleton.mpr rfl))⟩
    · simp only [insertMatch, if_neg hc]
      constructor
      · rintro ⟨g, hg, hx⟩
        rcases List.mem_cons.mp hg with rfl | hgs
        · exact Or.inl ⟨g, List.mem_cons_self _ _, hx⟩
        · rcases ih.mp ⟨g, hgs, hx⟩ with ⟨g2, hg2, hx2⟩ | h
          · exact Or.inl ⟨g2, List.mem_cons_of_mem _ hg2, hx2⟩
          · exact Or.inr h
      · rintro (⟨g, hg, hx⟩ | rfl)
        · rcases List.mem_cons.mp hg with rfl | hgs
          · exact ⟨g, List.mem_cons_self _ _, hx⟩
          · rcases ih.mpr (Or.inl ⟨g, hgs, hx⟩) with ⟨g2, hg2, hx2⟩
            exact ⟨g2, List.mem_cons_of_mem _ hg2, hx2⟩
        · rcases ih.mpr (Or.inr rfl) with ⟨g2, hg2, hx2⟩
          exact ⟨g2, List.mem_cons_of_mem _ hg2, hx2⟩

/-- Helper: the group fold preserves the code invariant. -/
theorem foldl_insertMatch_key_invariant :
    ∀ (ms : List MatchRec) (gs : List EventGroup),
    (∀ g ∈ gs, ∀ x ∈ g.matchList, keyOf x = g.code) →
    ∀ g ∈ ms.foldl insertMatch gs, ∀ x ∈ g.matchList, keyOf x = g.code := by
  intro ms
  induction ms with
  | nil => exact fun gs h => h
  | cons m ms ih =>
    intro gs h
    exact ih _ (insertMatch_key_invariant m gs h)

/-- Helper: every match of a group of groupByEvent carries that group's
event code. -/
theorem groupByEvent_key_invariant (ms : List MatchRec) :
    ∀ g ∈ groupByEvent ms, ∀ x ∈ g.matchList, keyOf x = g.code :=
  foldl_insertMatch_key_invariant ms [] (by simp)

/-- Helper: the group fold keeps codes without duplicates. -/
theorem foldl_insertMatch_codes_nodup :
    ∀ (ms : List MatchRec) (gs : List EventGroup),
    (gs.map (fun g => g.code)).Nodup →
    ((ms.foldl insertMatch gs).map (fun g => g.code)).Nodup := by
  intro ms
  induction ms with
  | nil => exact fun gs h => h
  | cons m ms ih =>
    intro gs h
    exact ih _ (insertMatch_codes_nodup gs m h)

/-- Helper: the groups of groupByEvent have pairwise distinct event
codes. -/
theorem groupByEvent_codes_nodup (ms : List MatchRec) :
    ((groupByEvent ms).map (fun g => g.code)).Nodup :=
  foldl_insertMatch_codes_nodup ms [] (by simp)

/-- Helper: a match is stored in some group of the fold exactly when it was
already stored or is one of the folded matches. -/
theorem mem_foldl_insertMatch :
    ∀ (ms : List MatchRec) (gs : List EventGroup) (x : MatchRec),
    (∃ g ∈ ms.foldl insertMatch gs, x ∈ g.matchList) ↔
    (∃ g ∈ gs, x ∈ g.matchList) ∨ x ∈ ms := by
  intro ms
  induction ms with
  | nil => simp
  | cons m ms ih =>
    intro gs x
    rw [List.foldl_cons, ih, mem_matchList_insertMatch, List.mem_cons, or_assoc]

/-- Helper: groupByEvent stores exactly the input matches. -/
theorem mem_groupByEvent (ms : List MatchRec) (x : MatchRec) :
    (∃ g ∈ groupByEvent ms, x ∈ g.matchList) ↔ x ∈ ms := by
  rw [groupByEvent, mem_foldl_insertMatch]
  simp

/-- Helper: the event sort is a permutation, so membership is preserved. -/
theorem mem_sortEventsDesc {gs : List EventGroup} {g : EventGroup} :
    g ∈ sortEventsDesc gs ↔ g ∈ gs :=
  List.mem_insertionSort eventDateGE

/-- Helper: the match sort preserves membership. -/
theorem mem_sortMatchesDesc {ms : List MatchRec} {m : MatchRec} :
    m ∈ sortMatchesDesc ms ↔ m ∈ ms :=
  List.mem_insertionSort matchDateGE

/-- Helper: the sorted event list is pairwise descending by date. -/
theorem sortEventsDesc_sorted (gs : List EventGroup) :
    (sortEventsDesc gs).Pairwise eventDateGE :=
  List.sorted_insertionSort eventDateGE gs

/-- Helper: sorting the events keeps their codes without duplicates. -/
theorem sortEventsDesc_codes_nodup (gs : List EventGroup)
    (h : (gs.map (fun g => g.code)).Nodup) :
    ((sortEventsDesc gs).map (fun g => g.code)).Nodup := by
  have hp : List.Perm (sortEventsDesc gs) gs := List.perm_insertionSort _ _
  exact ((hp.map _).nodup_iff).mpr h

/-- Helper: in a pairwise-related list, every kept element relates to every
dropped one. -/
theorem pairwise_take_drop {α : Type} {R : α → α → Prop} {l : List α}
    (h : l.Pairwise R) (n : Nat) :
    ∀ a ∈ l.take n, ∀ b ∈ l.drop n, R a b := by
  have h2 : (l.take n ++ l.drop n).Pairwise R := by
    rwa [List.take_append_drop]
  exact (List.pairwise_append.mp h2).2.2

end EventPage

/-- C5: an explicit event-code filter retains exactly the scored matches
whose parent event code equals the filter code case-insensitively, and the
configured window settings and default date play no role at all: the result
is identical under any two settings. -/
theorem event_code_filter_overrides_window :
    ∀ (ms : List EventPage.MatchRec) (f : String)
      (s s2 : EventPage.Settings) (d d2 : Nat),
    EventPage.selectRecentMatches ms (some f) s d =
      EventPage.selectRecentMatches ms (some f) s2 d2 ∧
    (∀ m, m ∈ EventPage.selectRecentMatches ms (some f) s d ↔
      (m ∈ ms ∧ EventPage.isScored m = true ∧
        ∃ c, m.eventCode = some c ∧ c.toUpper = f.toUpper)) := by
  intro ms f s s2 d d2
  constructor
  · rfl
  · intro m
    show m ∈ (EventPage.sortEventsDesc (EventPage.groupByEvent
        ((EventPage.sortMatchesDesc (ms.filter EventPage.isScored)).filter
          (fun x => EventPage.codeMatches x f)))).flatMap
        (fun g => g.matchList) ↔ _
    rw [List.mem_flatMap]
    have hsort : (∃ g ∈ EventPage.sortEventsDesc (EventPage.groupByEvent
          ((EventPage.sortMatchesDesc (ms.filter EventPage.isScored)).filter
            (fun x => EventPage.codeMatches x f))), m ∈ g.matchList) ↔
        (∃ g ∈ EventPage.groupByEvent
          ((EventPage.sortMatchesDesc (ms.filter EventPage.isScored)).filter
            (fun x => EventPage.codeMatches x f)), m ∈ g.matchList) := by
      constructor
      · rintro ⟨g, hg, hx⟩
        exact ⟨g, EventPage.mem_sortEventsDesc.mp hg, hx⟩
      · rintro ⟨g, hg, hx⟩
        exact ⟨g, EventPage.mem_sortEventsDesc.mpr hg, hx⟩
    rw [hsort, EventPage.mem_groupByEvent, List.mem_filter,
      EventPage.mem_sortMatchesDesc, List.mem_filter]
    constructor
    · rintro ⟨⟨hms, hsc⟩, hcode⟩
      refine ⟨hms, hsc, ?_⟩
      unfold EventPage.codeMatches at hcode
      cases hec : m.eventCode with
      | none => rw [hec] at hcode; cases hcode
      | some c =>
        rw [hec] at hcode
        exact ⟨c, rfl, by simpa using hcode⟩
    · rintro ⟨hms, hsc, c, hec, hcu⟩
      refine ⟨⟨hms, hsc⟩, ?_⟩
      unfold EventPage.codeMatches
      rw [hec]
      simpa using hcu

/-- Witness for C5: one scored match of event abc1 is retained under the
filter ABC1 regardless of a last-n-events setting that would keep nothing,
and the result agrees with the one under default settings. -/
theorem event_code_filter_overrides_window_witness :
    (EventPage.selectRecentMatches
      [⟨"Q1", some 100, some "abc1", some "Event One", [⟨"red", some 30, [1]⟩]⟩]
      (some "ABC1")
      ⟨none, [], [], some "last_n_events", none, some 1⟩ 0 =
    EventPage.selectRecentMatches
      [⟨"Q1", some 100, some "abc1", some "Event One", [⟨"red", some 30, [1]⟩]⟩]
      (some "ABC1") EventPage.defaultSettings 999) ∧
    ((⟨"Q1", some 100, some "abc1", some "Event One", [⟨"red", some 30, [1]⟩]⟩ :
        EventPage.MatchRec) ∈
      EventPage.selectRecentMatches
        [⟨"Q1", some 100, some "abc1", some "Event One", [⟨"red", some 30, [1]⟩]⟩]
        (some "ABC1")
        ⟨none, [], [], some "last_n_events", none, some 1⟩ 0 ↔
      ((⟨"Q1", some 100, some "abc1", some "Event One", [⟨"red", some 30, [1]⟩]⟩ :
          EventPage.MatchRec) ∈
        [(⟨"Q1", some 100, some "abc1", some "Event One", [⟨"red", some 30, [1]⟩]⟩ :
          EventPage.MatchRec)] ∧
        EventPage.isScored
          ⟨"Q1", some 100, some "abc1", some "Event One", [⟨"red", some 30, [1]⟩]⟩ =
          true ∧
        ∃ c, (⟨"Q1", some 100, some "abc1", some "Event One",
          [⟨"red", some 30, [1]⟩]⟩ : EventPage.MatchRec).eventCode = some c ∧
          c.toUpper = "ABC1".toUpper)) :=
  ⟨(event_code_filter_overrides_window
      [⟨"Q1", some 100, some "abc1", some "Event One", [⟨"red", some 30, [1]⟩]⟩]
      "ABC1" ⟨none, [], [], some "last_n_events", none, some 1⟩
      EventPage.defaultSettings 0 999).1,
   (event_code_filter_overrides_window
      [⟨"Q1", some 100, some "abc1", some "Event One", [⟨"red", some 30, [1]⟩]⟩]
      "ABC1" ⟨none, [], [], some "last_n_events", none, some 1⟩
      EventPage.defaultSettings 0 999).2 _⟩

/-- C4: with a last-n-events window of count N and no explicit event-code
filter, the fetcher partitions the scored matches by parent event, sorts
the events by date descending, keeps the first N events, and returns their
matches flattened: the result is exactly the matches of the kept events, at
most N distinct events are kept, every kept event is dated no earlier than
every dropped event, every returned match is a scored input match of a kept
event, and every scored match whose event is kept is returned. -/
theorem last_n_events_window :
    ∀ (ms : List EventPage.MatchRec) (s : EventPage.Settings) (d N : Nat),
    s.matchFilterType = some "last_n_events" →
    s.matchFilterCount = some N → 0 < N →
    (let scored := EventPage.sortMatchesDesc (ms.filter EventPage.isScored)
     let evs := EventPage.sortEventsDesc (EventPage.groupByEvent scored)
     let kept := evs.take N
     EventPage.selectRecentMatches ms none s d =
        kept.flatMap (fun g => g.matchList) ∧
     kept.length ≤ N ∧
     (kept.map (fun g => g.code)).Nodup ∧
     (∀ g ∈ kept, ∀ g2 ∈ evs.drop N, g2.date ≤ g.date) ∧
     (∀ m, m ∈ EventPage.selectRecentMatches ms none s d →
        m ∈ ms ∧ EventPage.isScored m = true ∧
        ∃ g ∈ kept, g.code = EventPage.keyOf m ∧ m ∈ g.matchList) ∧
     (∀ m ∈ scored, (∃ g ∈ kept, g.code = EventPage.keyOf m) →
        m ∈ EventPage.selectRecentMatches ms none s d)) := by
  intro ms s d N h1 h2 h3
  have hft : EventPage.effectiveFilterType s = "last_n_events" := by
    unfold EventPage.effectiveFilterType
    rw [h1]
    simp
  have hfc : EventPage.effectiveFilterCount s = N := by
    unfold EventPage.effectiveFilterCount
    rw [h2]
    simp [Nat.pos_iff_ne_zero.mp h3]
  have heq : EventPage.selectRecentMatches ms none s d =
      ((EventPage.sortEventsDesc (EventPage.groupByEvent
        (EventPage.sortMatchesDesc (ms.filter EventPage.isScored)))).take N).flatMap
        (fun g => g.matchList) := by
    unfold EventPage.selectRecentMatches EventPage.selectEvents
    rw [hft, hfc]
    simp
  set scored := EventPage.sortMatchesDesc (ms.filter EventPage.isScored) with hscored
  set evs := EventPage.sortEventsDesc (EventPage.groupByEvent scored) with hevs
  have hnodupEvs : (evs.map (fun g => g.code)).Nodup :=
    EventPage.sortEventsDesc_codes_nodup _ (EventPage.groupByEvent_codes_nodup scored)
  refine ⟨heq, List.length_take_le _ _, ?_, ?_, ?_, ?_⟩
  · rw [List.map_take]
    exact hnodupEvs.take
  · intro g hg g2 hg2
    exact EventPage.pairwise_take_drop (EventPage.sortEventsDesc_sorted _) N g hg g2 hg2
  · intro m hm
    rw [heq] at hm
    rcases List.mem_flatMap.mp hm with ⟨g, hgkept, hx⟩
    have hgevs : g ∈ evs := List.mem_of_mem_take hgkept
    have hggrp : g ∈ EventPage.groupByEvent scored := EventPage.mem_sortEventsDesc.mp hgevs
    have hkey : EventPage.keyOf m = g.code :=
      EventPage.groupByEvent_key_invariant scored g hggrp m hx
    have hmscored : m ∈ scored :=
      (EventPage.mem_groupByEvent scored m).mp ⟨g, hggrp, hx⟩
    have hmfil : m ∈ ms.filter EventPage.isScored :=
      EventPage.mem_sortMatchesDesc.mp hmscored
    rcases List.mem_filter.mp hmfil with ⟨hms, hsc⟩
    exact ⟨hms, hsc, g, hgkept, hkey.symm, hx⟩
  · intro m hmscored hex
    rcases hex with ⟨g, hgkept, hcode⟩
    rcases (EventPage.mem_groupByEvent scored m).mpr hmscored with ⟨g2, hg2grp, hx2⟩
    have hkey2 : EventPage.keyOf m = g2.code :=
      EventPage.groupByEvent_key_invariant scored g2 hg2grp m hx2
    have hgevs : g ∈ evs := List.mem_of_mem_take hgkept
    have hg2evs : g2 ∈ evs := EventPage.mem_sortEventsDesc.mpr hg2grp
    have hgg2 : g = g2 := by
      apply List.inj_on_of_nodup_map hnodupEvs hgevs hg2evs
      rw [hcode, hkey2]
    rw [heq]
    exact List.mem_flatMap.mpr ⟨g, hgkept, hgg2 ▸ hx2⟩

/-- Witness for C4: seven scored matches across seven distinct events with
a last-3-events window keep exactly the matches of the three most recent
events. -/
theorem last_n_events_window_witness :
    EventPage.sampleWindowSettings.matchFilterType = some "last_n_events" ∧
    EventPage.sampleWindowSettings.matchFilterCount = some 3 ∧
    0 < 3 ∧
    EventPage.selectRecentMatches EventPage.sampleMatches none
        EventPage.sampleWindowSettings 0 =
      ((EventPage.sortEventsDesc (EventPage.groupByEvent
        (EventPage.sortMatchesDesc
          (EventPage.sampleMatches.filter EventPage.isScored)))).take 3).flatMap
        (fun g => g.matchList) ∧
    EventPage.selectRecentMatches EventPage.sampleMatches none
        EventPage.sampleWindowSettings 0 =
      [ EventPage.sampleMatch "Q1" "E1" 70, EventPage.sampleMatch "Q2" "E2" 60
      , EventPage.sampleMatch "Q3" "E3" 50 ] := by
  have h := last_n_events_window EventPage.sampleMatches
    EventPage.sampleWindowSettings 0 3 rfl rfl (by decide)
  exact ⟨rfl, rfl, by decide, h.1, by decide⟩
